import Mathlib

/-!
Shallow embedding of the request/response engine of the rust-xfinal HTTP
server (src/http-server/src/http_parser.rs and
src/http-server/src/http_parser/connection.rs).

Modelling conventions:
* Rust strings and byte buffers (`String`, `&str`, `Vec<u8>`) are `List Char`
  (all bytes of interest are in the one-byte range, so `Char` is a faithful
  carrier and UTF-8 validation steps become identities).
* Rust `HashMap` values are association lists; `insert` replaces an existing
  exact key in place, otherwise appends.  List order stands in for the map's
  (unspecified) iteration order; `keys().find(..)` is `List.find?`.
* The TCP stream is the list of bytes it will still deliver; a `read` that
  runs out of bytes models the `read_size == 0` ("lost connection") case.
* The filesystem is a partial map from paths to file contents.
* Rust panics (`panic!`, `todo!()`, out-of-bounds indexing) are explicit
  `panicked` constructors or `Option.none` results, as documented per
  function.
-/

abbrev Str := List Char

def str (s : String) : Str := s.data

/-- Per-character lowercasing, modelling Rust's `str::to_lowercase` (the
header names and form field names at issue are ASCII). -/
def lowerStr (s : Str) : Str := s.map Char.toLower

/-- `leadsWith pat s` is true when `pat` occurs at the start of `s`. -/
def leadsWith : Str → Str → Bool
  | [], _ => true
  | _ :: _, [] => false
  | a :: pa, b :: sb => a == b && leadsWith pa sb

/-- First index at which `pat` occurs in `s`, if any (Rust `str::find` /
`windows(..).position(..)`). -/
def findSub (pat : Str) : Str → Option Nat
  | [] => if leadsWith pat [] then some 0 else none
  | c :: rest =>
    if leadsWith pat (c :: rest) then some 0
    else (findSub pat rest).map (· + 1)

def containsSub (s pat : Str) : Bool := (findSub pat s).isSome

/-- Rust `str::split_once`. -/
def splitOnceSub (s pat : Str) : Option (Str × Str) :=
  (findSub pat s).map fun i => (s.take i, s.drop (i + pat.length))

def splitOnGo (pat : Str) : Nat → Str → List Str
  | 0, s => [s]
  | Nat.succ fuel, s =>
    match splitOnceSub s pat with
    | some ab => ab.1 :: splitOnGo pat fuel ab.2
    | none => [s]

/-- Rust `str::split` on a (nonempty) pattern; keeps empty pieces, like Rust. -/
def splitOnSub (s pat : Str) : List Str := splitOnGo pat s.length s

/-- Rust `str::trim`. -/
def trimStr (s : Str) : Str :=
  ((s.dropWhile Char.isWhitespace).reverse.dropWhile Char.isWhitespace).reverse

/-- Decimal rendering of a number (Rust `ToString for usize/u64`). -/
def numStr (n : Nat) : Str := Nat.toDigits 10 n

/-- Uppercase hex rendering (Rust `format "X"` for the chunk size line). -/
def hexStr (n : Nat) : Str := (Nat.toDigits 16 n).map Char.toUpper

def decValue (s : Str) : Nat := s.foldl (fun a c => a * 10 + (c.toNat - 48)) 0

/-- Rust `str::parse::<u64>()`: optional leading plus sign, at least one
digit, nothing else, and the value must fit in 64 bits. -/
def parseU64 (s : Str) : Option Nat :=
  let t := match s with | '+' :: rest => rest | _ => s
  if t ≠ [] ∧ t.all Char.isDigit ∧ decValue t < 2 ^ 64 then some (decValue t)
  else none

/-! ## Header maps -/

abbrev Headers := List (Str × Str)

/-- `HashMap::insert`: replace the value under an existing exact key in
place, otherwise add the pair (`Response::add_header`, and header insertion
while parsing the head; `HashMap` keys are unique, so replacing the first
exact occurrence is the map's behaviour). -/
def addHeader : Headers → Str → Str → Headers
  | [], k, v => [(k, v)]
  | p :: rest, k, v =>
    if p.1 == k then (k, v) :: rest else p :: addHeader rest k v

/-- `keys().find(|ik| ik.to_lowercase() == key.to_lowercase())` together with
the subsequent `get`: the first entry whose name matches case-insensitively. -/
def findCI (m : Headers) (k : Str) : Option (Str × Str) :=
  m.find? (fun p => lowerStr p.1 == lowerStr k)

/-- `Request::get_header` (and `Response::get_request_header_value`):
case-insensitive lookup returning the stored value. -/
def getHeader (m : Headers) (k : Str) : Option Str := (findCI m k).map (·.2)

/-- `HashMap::remove` with an exact key (keys of a `HashMap` are unique; on
an association list this drops the entries carrying that exact key). -/
def removeExact (m : Headers) (k : Str) : Headers :=
  m.filter (fun p => !(p.1 == k))

/-- `Response::remove_header`: find the first case-insensitively matching
stored key, then remove that exact key. -/
def removeHeader (m : Headers) (k : Str) : Headers :=
  match findCI m k with
  | some p => removeExact m p.1
  | none => m

/-- `Response::header_exist`: note the comparison `k == s` is EXACT, not
case-insensitive. -/
def headerExist (m : Headers) (s : Str) : Bool :=
  (m.find? (fun p => p.1 == s)).isSome

/-- `ResponseConfig::get_map_key`: the first case-insensitively matching
stored key. -/
def getMapKey (m : Headers) (k : Str) : Option Str := (findCI m k).map (·.1)

/-- Number of entries whose name matches `k` case-insensitively. -/
def ciCount (m : Headers) (k : Str) : Nat :=
  (m.filter (fun p => lowerStr p.1 == lowerStr k)).length

/-! ## Data model (connection.rs) -/

structure MultipleFormFile where
  filename : Str
  filepath : Str
  content_type : Str
  form_indice : Str
deriving DecidableEq

inductive MultipleFormData where
  | text (s : Str)
  | file (f : MultipleFormFile)
deriving DecidableEq

inductive BodyContent where
  | urlForm (m : Headers)
  | pureText (s : Str)
  | multi (m : List (Str × MultipleFormData))
  | none
  | bad
  | tooLarge
deriving DecidableEq

inductive BodyType where
  | memory (b : Str)
  | file (path : Str)
  | none
deriving DecidableEq

inductive ResponseRangeMeta where
  | range (s e : Option Nat)
  | none
deriving DecidableEq

structure Response where
  header_pair : Headers
  version : Str
  method : Str
  http_state : Nat
  body : BodyType
  chunked_enable : Bool
  chunk_size : Nat
  range : ResponseRangeMeta
  request_header : Headers
deriving DecidableEq

/-- The filesystem: path to file contents. -/
abbrev Fs := Str → Option Str

structure ServerConfig where
  upload_directory : Str
  read_timeout : Nat
  chunk_size : Nat
  write_timeout : Nat
  open_log : Bool
  max_body_size : Nat
  max_header_size : Nat
  read_buff_increase_size : Nat
deriving DecidableEq

/-! ## Request accessors (connection.rs) -/

/-- `Request::get_query`: case-insensitive form-field lookup over a url-form
or multipart body; a multipart file entry found under the name yields `none`. -/
def getQuery (body : BodyContent) (k : Str) : Option Str :=
  match body with
  | .urlForm m => (findCI m k).map (·.2)
  | .multi m =>
    match m.find? (fun p => lowerStr p.1 == lowerStr k) with
    | some p =>
      match p.2 with
      | .text v => some v
      | .file _ => none
    | none => none
  | _ => none

/-- `Request::get_file`: case-insensitive lookup of a multipart file entry. -/
def getFile (body : BodyContent) (k : Str) : Option MultipleFormFile :=
  match body with
  | .multi m =>
    match m.find? (fun p => lowerStr p.1 == lowerStr k) with
    | some p =>
      match p.2 with
      | .file f => some f
      | .text _ => none
    | none => none
  | _ => none

/-! ## Response builder operations (connection.rs) -/

/-- `Response::write_state`: set the status, add `Content-length: 0`, drop
the body. -/
def writeState (res : Response) (code : Nat) : Response :=
  { res with
      http_state := code,
      header_pair := addHeader res.header_pair (str "Content-length") (numStr 0),
      body := BodyType.none }

/-- `Response::write_binary`: add `Content-length` with the payload length
and install a memory body. -/
def writeBinary (res : Response) (v : Str) : Response :=
  { res with
      header_pair := addHeader res.header_pair (str "Content-length") (numStr v.length),
      body := BodyType.memory v }

/-- `Response::write_string` delegates to `write_binary`. -/
def writeString (res : Response) (v : Str) : Response := writeBinary res v

/-- `ResponseConfig::chunked` on a configurator with `has_failure == false`:
no-op for HEAD, otherwise add `Transfer-Encoding: chunked`, remove the first
case-insensitively matching `content-length` key, and raise the chunked
flag. -/
def chunkedConfig (res : Response) : Response :=
  if res.method = str "HEAD" then res
  else
    let r1 := { res with
      header_pair := addHeader res.header_pair (str "Transfer-Encoding") (str "chunked") }
    let r2 :=
      match getMapKey r1.header_pair (str "content-length") with
      | some k => { r1 with header_pair := removeExact r1.header_pair k }
      | none => r1
    { r2 with chunked_enable := true }

/-- `parse_range_content`: split the header value at `=`, then the right
part at `-`; a side parses to `Some` only when nonempty and a valid `u64`
(the `unwrap_or_else` exception flag makes a failed parse `None`). A value
with no `=` or no `-` yields `Range(None, None)`. -/
def parseRangeContent (v : Str) : ResponseRangeMeta :=
  match splitOnceSub (trimStr v) (str "=") with
  | some v1 =>
    match splitOnceSub (trimStr v1.2) (str "-") with
    | some lr =>
      let start := if lr.1 ≠ [] then parseU64 lr.1 else none
      let stop := if lr.2 ≠ [] then parseU64 lr.2 else none
      ResponseRangeMeta.range start stop
    | none => ResponseRangeMeta.range none none
  | none => ResponseRangeMeta.range none none

/-! ## Response writer (connection.rs and http_parser.rs) -/

/-- `STATE_TABLE` from `http_response_table`, verbatim (including the
trailing CRLF carried inside each reason string and the table's spelling). -/
def stateTable : List (Nat × Str) :=
  [ (101, str "101 Switching Protocals\r\n"),
    (200, str "200 OK\r\n"),
    (201, str "201 Created\r\n"),
    (202, str "202 Accepted\r\n"),
    (204, str "204 No Content\r\n"),
    (206, str "206 Partial Content\r\n"),
    (300, str "300 Multiple Choices\r\n"),
    (301, str "301 Moved Permanently\r\n"),
    (302, str "302 Moved Temporarily\r\n"),
    (304, str "304 Not Modified\r\n"),
    (400, str "400 Bad Request\r\n"),
    (401, str "401 Unauthorized\r\n"),
    (403, str "403 Forbidden\r\n"),
    (404, str "404 Not Found\r\n"),
    (413, str "413 Request Entity Too Large\r\n"),
    (416, str "416 Requested Range Not Satisfiable\r\n"),
    (500, str "500 Internal Server Error\r\n"),
    (501, str "501 Not Implemented\r\n"),
    (502, str "502 Bad Gateway\r\n"),
    (503, str "503 Service Unavailable\r\n") ]

/-- `get_httpstatus_from_code`; the `Err` arm of the binary search is a
`panic!`, modelled as `none`. -/
def getHttpstatusFromCode (code : Nat) : Option Str :=
  (stateTable.find? (fun p => p.1 == code)).map (·.2)

def headerLines : Headers → Str
  | [] => []
  | p :: rest => p.1 ++ str ": " ++ p.2 ++ str "\r\n" ++ headerLines rest

/-- `Response::header_to_string`: status line (the reason text already ends
in CRLF), one line per stored header pair, then the blank line.  `none`
models the panic on a status code missing from the table. -/
def headerToString (res : Response) : Option Str :=
  (getHttpstatusFromCode res.http_state).map fun st =>
    res.version ++ str " " ++ st ++ headerLines res.header_pair ++ str "\r\n"

/-- `Response::take_body_size`; the `Err` of a failed file open is
`Except.error`. -/
def takeBodySize (fs : Fs) : BodyType → Except Unit Nat
  | .memory b => .ok b.length
  | .file p =>
    match fs p with
    | some c => .ok c.length
    | none => .error ()
  | .none => .ok 0

/-- Outcome of `Response::take_body_buff`: a body buffer plus the mutated
response, an `Err` return (response possibly already mutated), or a panic
(the `todo!()` arm). -/
inductive TbbOut where
  | ok (buff : Str) (res : Response)
  | err (res : Response)
  | panicked
deriving DecidableEq

/-- The `Content-Range` value `format "bytes beg-endp/size"`. -/
def contentRangeVal (beg endp size : Nat) : Str :=
  str "bytes " ++ numStr beg ++ str "-" ++ numStr endp ++ str "/" ++ numStr size

/-- The header mutations of the satisfiable-range path of `take_body_buff`:
add `Content-Range`, remove `Content-Length` (via the case-insensitive
`remove_header`), and re-add `Content-Length` with the window length unless
chunking is enabled. -/
def rangeHeaders (hp : Headers) (chunked : Bool) (beg endp size : Nat) : Headers :=
  if chunked then
    removeHeader (addHeader hp (str "Content-Range") (contentRangeVal beg endp size))
      (str "Content-Length")
  else
    addHeader
      (removeHeader (addHeader hp (str "Content-Range") (contentRangeVal beg endp size))
        (str "Content-Length"))
      (str "Content-Length") (numStr (endp - beg + 1))

/-- The shared tail of `take_body_buff`'s `Range` arm, after `beg_pos` and
`end_pos` are resolved: the satisfiability test (note `beg_pos >= size - 1`),
the 416 path (`write_state(416)` then `Err`), and the 206 path with the
`Content-Range` bookkeeping and body slicing; a file body whose open fails
propagates `Err` with the headers already mutated. -/
def rangeResolved (fs : Fs) (res : Response) (bodySize beg endp : Nat) : TbbOut :=
  if beg > endp ∨ beg ≥ bodySize - 1 ∨ endp ≥ bodySize then
    TbbOut.err (writeState res 416)
  else
    match res.body with
    | .memory b =>
      TbbOut.ok ((b.drop beg).take (endp - beg + 1))
        { res with
            header_pair := rangeHeaders res.header_pair res.chunked_enable beg endp bodySize,
            http_state := 206 }
    | .file p =>
      match fs p with
      | some c =>
        TbbOut.ok ((c.drop beg).take (endp - beg + 1))
          { res with
              header_pair := rangeHeaders res.header_pair res.chunked_enable beg endp bodySize,
              http_state := 206 }
      | none =>
        TbbOut.err
          { res with
              header_pair := rangeHeaders res.header_pair res.chunked_enable beg endp bodySize,
              http_state := 206 }
    | .none =>
      TbbOut.ok []
        { res with
            header_pair := rangeHeaders res.header_pair res.chunked_enable beg endp bodySize,
            http_state := 206 }

/-- `Response::take_body_buff`.  The `lack_beg` bookkeeping of the source
resolves the four `(start, end)` shapes exactly as matched here; the
`(None, None)` shape reaches `todo!()` and panics. -/
def takeBodyBuff (fs : Fs) (res : Response) : TbbOut :=
  match takeBodySize fs res.body with
  | .error _ => TbbOut.err res
  | .ok bodySize =>
    match res.range with
    | .range st en =>
      match st, en with
      | some s, some e => rangeResolved fs res bodySize s e
      | some s, none => rangeResolved fs res bodySize s (bodySize - 1)
      | none, some e => rangeResolved fs res bodySize (bodySize - e) (bodySize - 1)
      | none, none => TbbOut.panicked
    | .none =>
      match res.body with
      | .memory b => TbbOut.ok b res
      | .file p =>
        match fs p with
        | some c => TbbOut.ok c res
        | none => TbbOut.err res
      | .none => TbbOut.ok [] res

/-- The chunk frames of `write_chunk`'s loop: each slice of at most
`csize` bytes becomes `SIZE-IN-HEX CRLF bytes CRLF` (fuel keeps the
definition total; one slice consumes at least one byte whenever
`csize > 0`, which the loop needs to terminate at all). -/
def chunkFramesGo (csize : Nat) : Nat → Str → Str
  | 0, _ => []
  | Nat.succ fuel, b =>
    if b.isEmpty then []
    else
      let sl := b.take csize
      hexStr sl.length ++ str "\r\n" ++ sl ++ str "\r\n" ++ chunkFramesGo csize fuel (b.drop csize)

def chunkFrames (csize : Nat) (b : Str) : Str := chunkFramesGo csize b.length b

/-- Outcome of a writer call: `done bytes res` is a successful write of
exactly `bytes` to the socket, `failed bytes res` an `Err` return after
having written `bytes` (for `take_body_buff` failures nothing was written
yet), `panicked` a panic. -/
inductive WOut where
  | done (bytes : Str) (res : Response)
  | failed (bytes : Str) (res : Response)
  | panicked
deriving DecidableEq

/-- `write_once`: HEAD gets the header block only; otherwise
`take_body_buff` runs FIRST (so its `Err` aborts before any byte is
written), then the header block and the body slices go out. -/
def writeOnce (fs : Fs) (res : Response) : WOut :=
  if res.method = str "HEAD" then
    match headerToString res with
    | some h => WOut.done h res
    | none => WOut.panicked
  else
    match takeBodyBuff fs res with
    | .err res' => WOut.failed [] res'
    | .panicked => WOut.panicked
    | .ok buff res' =>
      match headerToString res' with
      | some h => WOut.done (h ++ buff) res'
      | none => WOut.panicked

/-- `write_chunk`: `take_body_buff` first, then the header block; for HEAD
it stops there; otherwise the chunk frames and the `0 CRLF CRLF`
terminator follow. -/
def writeChunk (fs : Fs) (res : Response) : WOut :=
  match takeBodyBuff fs res with
  | .err res' => WOut.failed [] res'
  | .panicked => WOut.panicked
  | .ok buff res' =>
    match headerToString res' with
    | some h =>
      if res'.method = str "HEAD" then WOut.done h res'
      else WOut.done (h ++ chunkFrames res'.chunk_size buff ++ str "0\r\n\r\n") res'
    | none => WOut.panicked

/-! ## Connection driver and head parsing (http_parser.rs) -/

/-- The `Response` value `construct_http_event` hands to the router: empty
header map, status 200, no body, chunking off, no range. -/
def initResponse (version method : Str) (reqHeaders : Headers) (csize : Nat) : Response :=
  { header_pair := [],
    version := version,
    method := method,
    http_state := 200,
    body := BodyType.none,
    chunked_enable := false,
    chunk_size := csize,
    range := ResponseRangeMeta.none,
    request_header := reqHeaders }

/-- Result of `parse_header`: the parsed request line plus header map, a
protocol error (`Err`), or a panic (`url_result[2]` indexes past the end of
the split request line when it has fewer than three tokens). -/
inductive ParseOut where
  | ok (method url version : Str) (hm : Headers)
  | protoErr
  | panicked
deriving DecidableEq

/-- The header-line loop of `parse_header`: each line must split at a colon
(`None` models the `invalid k/v pair in head` error); key and value are
trimmed and inserted. -/
def buildHeadMap (acc : Headers) : List Str → Option Headers
  | [] => some acc
  | it :: rest =>
    match splitOnceSub it (str ":") with
    | some kv => buildHeadMap (addHeader acc (trimStr kv.1) (trimStr kv.2)) rest
    | none => none

/-- `parse_header`.  The source builds the header map before touching
`url_result[1]`/`url_result[2]`, so a bad header line errs before the
too-few-tokens request line can panic. -/
def parseHeader (head : Str) : ParseOut :=
  match findSub (str "\r\n") head with
  | some pos =>
    let toks := (splitOnSub (head.take pos) (str " ")).map trimStr
    let items := splitOnSub (head.drop (pos + 2)) (str "\r\n")
    match buildHeadMap [] items with
    | some hm =>
      match toks with
      | m :: u :: v :: _ => ParseOut.ok m u v hm
      | _ => ParseOut.panicked
    | none => ParseOut.protoErr
  | none => ParseOut.protoErr

/-- `read_http_head`, given the full byte sequence the socket will deliver:
the text before the first `CRLF CRLF` is the head, anything already past it
is the pre-read body tail (`total_read_size > crlf_end`); no terminator at
all means the read loop fails (`none`). -/
def extractHead (input : Str) : Option (Str × Option Str) :=
  match findSub (str "\r\n\r\n") input with
  | some pos =>
    if pos + 4 < input.length then some (input.take pos, some (input.drop (pos + 4)))
    else some (input.take pos, none)
  | none => none

/-- What `handle_incoming` does with the head parse result: `Err` leads to
`stream.shutdown` and `break` with no response bytes written; a panic kills
the worker's handling of the connection. -/
inductive HeadAction where
  | close
  | proceed (method url version : Str) (hm : Headers)
  | panicked
deriving DecidableEq

def headStepAction : ParseOut → HeadAction
  | .ok m u v hm => .proceed m u v hm
  | .protoErr => .close
  | .panicked => .panicked

/-- Whether `handle_incoming` reaches `construct_http_event` (router,
middlewares and handler) for a given body outcome: `Bad` and `TooLarge`
`break` out of the loop first, closing the connection. -/
def bodyDispatch : BodyContent → Bool
  | .bad => false
  | .tooLarge => false
  | _ => true

/-! ## Body reading (http_parser.rs) -/

/-- `parse_url_form_body`: split on ampersands, keep pairs that split at an
equals sign with nonempty key and value, collect into a map (later entries
overwrite earlier ones, as `HashMap::from_iter` does). -/
def parseUrlFormBody (container : Str) : BodyContent :=
  let pairs := (splitOnSub container (str "&")).map fun x =>
    match splitOnceSub x (str "=") with
    | some kv => kv
    | none => (([] : Str), ([] : Str))
  let kept := pairs.filter fun kv => !(kv.1.length == 0 || kv.2.length == 0)
  BodyContent.urlForm (kept.foldl (fun m kv => addHeader m kv.1 kv.2) [])

/-- The tail of the non-multipart arm of `read_body_according_to_type`: any
content type other than url-form is exposed as `PureText` (the UTF-8 check
is an identity on the `Char` model), url-form bodies are decoded. -/
def finishBody (container tp : Str) : BodyContent :=
  if tp ≠ str "application/x-www-form-urlencoded" then BodyContent.pureText container
  else parseUrlFormBody container

/-- `read_body_according_to_type`.  The multipart state machine is the
`multiHandler` parameter (its internals are not needed by any claim below;
every theorem about this function quantifies over it or avoids that arm).
In the non-multipart arm: with bytes still owed, the size check
`container.len() + need > max_body_size` runs BEFORE the read loop; the
loop then demands exactly `need` bytes from the stream, and a stream that
runs dry is the `read_size == 0` `Bad` case.  With `need == 0` no size
check happens at all. -/
def readBodyAccordingToType (multiHandler : Str → Str → Nat → BodyContent)
    (stream body_type container : Str) (need : Nat) (cfg : ServerConfig) : BodyContent :=
  let tp := lowerStr body_type
  if containsSub tp (str "multipart/form-data") then multiHandler stream container need
  else if need ≠ 0 then
    if container.length + need > cfg.max_body_size then BodyContent.tooLarge
    else if stream.length < need then BodyContent.bad
    else finishBody (container ++ stream.take need) tp
  else finishBody container tp

/-- `read_body`: zero length means no body; a missing `Content-Type` with a
positive length is `Bad`; otherwise the remainder still owed beyond the
pre-read tail is handed to `read_body_according_to_type`. -/
def readBody (multiHandler : Str → Str → Nat → BodyContent)
    (stream : Str) (head_map : Headers) (body : Str) (len : Nat) (cfg : ServerConfig) :
    BodyContent :=
  if 0 < len then
    match findCI head_map (str "content-type") with
    | some p =>
      if body.length < len then
        readBodyAccordingToType multiHandler stream p.2 body (len - body.length) cfg
      else
        readBodyAccordingToType multiHandler stream p.2 body 0 cfg
    | none => BodyContent.bad
  else BodyContent.none

/-- `get_config_from_disposition`: extract the quoted value after
`name=` and, for files, after `filename=`.  Every `todo!()` arm
(no quoted name, no closing quote, no filename on a file part) is `none`,
i.e. a panic on a malformed `Content-Disposition` line. -/
def getConfigFromDisposition (s : Str) (isFilePart : Bool) : Option (Str × Option Str) :=
  let nameKey := str "name=\""
  match findSub nameKey s with
  | some pos =>
    let pos2 := pos + nameKey.length
    match findSub (str "\"") (s.drop pos2) with
    | some posEnd =>
      let nm := (s.drop pos2).take posEnd
      if isFilePart then
        let bias := posEnd + 2
        let fileKey := str "filename=\""
        match findSub fileKey (s.drop bias) with
        | some fpos =>
          let fpos2 := bias + fpos + fileKey.length
          match findSub (str "\"") (s.drop fpos2) with
          | some fend => some (nm, some ((s.drop fpos2).take fend))
          | none => none
        | none => none
      else some (nm, none)
    | none => none
  | none => none

/-! ## Router (http_parser.rs) -/

/-- The query string is stripped from the routing key (`url.split_once`). -/
def pathOfUrl (url : Str) : Str :=
  match splitOnceSub url (str "?") with
  | some p => p.1
  | none => url

/-- The wildcard test inside `do_router`, with `last = k.len() - 1`: the
registered key must end in an asterisk, the request key must satisfy
`key.len() > last - 1`, and the first `last - 1` characters of both must
agree. -/
def wildMatch (key k : Str) : Bool :=
  let last := k.length - 1
  (k.drop last == str "*") && (decide (last - 1 < key.length)) &&
    (k.take (last - 1) == key.take (last - 1))

inductive RouteOutcome where
  | exact (k : Str)
  | wildcard (k : Str)
  | notFound
deriving DecidableEq

/-- `do_router`, abstracted to which registered entry gets invoked: the
exact key, the first wildcard-matching key, or the reserved
`NEVER_FOUND_FOR_ALL` entry. -/
def doRouter (keys : List Str) (method url : Str) : RouteOutcome :=
  let key := method ++ pathOfUrl url
  if keys.contains key then RouteOutcome.exact key
  else
    match keys.find? (fun k => wildMatch key k) with
    | some k => RouteOutcome.wildcard k
    | none => RouteOutcome.notFound

/-! ## Concrete fixtures used by the claim theorems below -/

/-- The empty filesystem. -/
def fs0 : Fs := fun _ => Option.none

/-- A GET response over the two-byte memory body `ab` whose recorded range
pair is `(Some 1, Some 1)` — the last byte, a pair the spec calls
satisfiable (`1 ≤ 1 < 2`). -/
def resC1x : Response :=
  { header_pair := [], version := str "HTTP/1.1", method := str "GET",
    http_state := 200, body := BodyType.memory (str "ab"),
    chunked_enable := false, chunk_size := 4,
    range := ResponseRangeMeta.range (some 1) (some 1), request_header := [] }

/-- A GET response over the four-byte memory body `abcd` with range
`(Some 1, Some 2)`. -/
def resC1w : Response :=
  { resC1x with body := BodyType.memory (str "abcd"),
                range := ResponseRangeMeta.range (some 1) (some 2) }

/-- A handler first writes `hello`. -/
def resC2w0 : Response :=
  writeString (initResponse (str "HTTP/1.1") (str "GET") [] 4) (str "hello")

/-- ... then enables chunking, then writes again: `write_string` re-adds a
`Content-length` header while the chunked flag stays raised. -/
def resC2x : Response := writeString (chunkedConfig resC2w0) (str "world!")

def c2wOut : WOut := writeChunk fs0 (chunkedConfig resC2w0)

def c2wBytes : Str :=
  match c2wOut with
  | WOut.done b _ => b
  | _ => []

def c2wRes : Response :=
  match c2wOut with
  | WOut.done _ r => r
  | _ => chunkedConfig resC2w0

/-- Configuration with `max_body_size = 2` (other fields as in
`HttpServer::create`). -/
def cfgC5 : ServerConfig :=
  { upload_directory := str "./upload", read_timeout := 5000,
    chunk_size := 5120, write_timeout := 5000, open_log := false,
    max_body_size := 2, max_header_size := 1024,
    read_buff_increase_size := 512 }

/-- A stand-in for the multipart state machine (never reached in the
theorems below, which all stay on non-multipart content types). -/
def mhBad : Str → Str → Nat → BodyContent := fun _ _ _ => BodyContent.bad

/-- A GET response over the memory body `ab` whose recorded range pair is
the `(None, None)` shape. -/
def resC6w : Response :=
  { resC1x with range := ResponseRangeMeta.range Option.none Option.none }

/-- A router with one wildcard registration `GET/w/*` plus the reserved
not-found key. -/
def keysC8 : List Str := [str "GET/w/*", str "NEVER_FOUND_FOR_ALL"]

/-- An uploaded file record for the C10 witness. -/
def fileC10 : MultipleFormFile :=
  { filename := str "a.png", filepath := str "./upload/u.png",
    content_type := str "image/png", form_indice := str "avatar" }

def mmC10 : List (Str × MultipleFormData) :=
  [(str "avatar", MultipleFormData.file fileC10),
   (str "Name", MultipleFormData.text (str "alice"))]

/-! ## Helper lemmas -/
theorem find_eq_some_of_unique {α : Type} (p : α → Bool) :
    ∀ (l : List α) (x : α), x ∈ l → p x = true →
      (∀ y ∈ l, p y = true → y = x) → l.find? p = some x := by
  intro l
  induction l with
  | nil => intro x hx _ _; cases hx
  | cons a t ih =>
    intro x hx hp hu
    by_cases ha : p a = true
    · have hax : a = x := hu a (List.mem_cons_self a t) ha
      rw [List.find?_cons_of_pos _ ha, hax]
    · have hxt : x ∈ t := by
        rcases List.mem_cons.mp hx with h | h
        · exact absurd (h ▸ hp) ha
        · exact h
      rw [List.find?_cons_of_neg _ (by simpa using ha)]
      exact ih x hxt hp (fun y hy hpy => hu y (List.mem_cons_of_mem _ hy) hpy)

theorem findCI_isSome_of_mem (m : Headers) (q k v : Str)
    (hmem : (k, v) ∈ m) (h : lowerStr k = lowerStr q) : (findCI m q).isSome := by
  rw [findCI, List.find?_isSome]
  exact ⟨(k, v), hmem, by simpa using h⟩

theorem findCI_some_lower {m : Headers} {q : Str} {p : Str × Str}
    (h : findCI m q = some p) : lowerStr p.1 = lowerStr q := by
  have := List.find?_some h
  simpa using this

theorem findCI_some_mem {m : Headers} {q : Str} {p : Str × Str}
    (h : findCI m q = some p) : p ∈ m :=
  List.mem_of_find?_eq_some h

theorem findCI_none_forall {m : Headers} {q : Str} :
    findCI m q = none ↔ ∀ p ∈ m, lowerStr p.1 ≠ lowerStr q := by
  rw [findCI, List.find?_eq_none]
  constructor
  · intro h p hp
    have := h p hp
    simpa using this
  · intro h p hp
    simpa using h p hp

theorem mem_addHeader_self (m : Headers) (k v : Str) : (k, v) ∈ addHeader m k v := by
  induction m with
  | nil => simp [addHeader]
  | cons a t ih =>
    rw [addHeader]
    by_cases h : a.1 = k
    · simp [h]
    · simp only [show (a.1 == k) = false from by simpa using h, if_false]
      exact List.mem_cons_of_mem _ ih

theorem mem_addHeader_of_ne {m : Headers} {p : Str × Str} (k v : Str)
    (hp : p ∈ m) (hne : p.1 ≠ k) : p ∈ addHeader m k v := by
  induction m with
  | nil => cases hp
  | cons a t ih =>
    rw [addHeader]
    by_cases h : a.1 = k
    · simp only [show (a.1 == k) = true from by simpa using h, if_true]
      rcases List.mem_cons.mp hp with rfl | hmem
      · exact absurd h hne
      · exact List.mem_cons_of_mem _ hmem
    · simp only [show (a.1 == k) = false from by simpa using h, if_false]
      rcases List.mem_cons.mp hp with rfl | hmem
      · exact List.mem_cons_self _ _
      · exact List.mem_cons_of_mem _ (ih hmem)

theorem mem_of_mem_addHeader {m : Headers} {p : Str × Str} {k v : Str}
    (hp : p ∈ addHeader m k v) : p = (k, v) ∨ p ∈ m := by
  induction m with
  | nil => simpa [addHeader] using hp
  | cons a t ih =>
    rw [addHeader] at hp
    by_cases h : a.1 = k
    · simp only [show (a.1 == k) = true from by simpa using h, if_true] at hp
      rcases List.mem_cons.mp hp with rfl | hmem
      · exact Or.inl rfl
      · exact Or.inr (List.mem_cons_of_mem _ hmem)
    · simp only [show (a.1 == k) = false from by simpa using h, if_false] at hp
      rcases List.mem_cons.mp hp with rfl | hmem
      · exact Or.inr (List.mem_cons_self _ _)
      · rcases ih hmem with h1 | h2
        · exact Or.inl h1
        · exact Or.inr (List.mem_cons_of_mem _ h2)

theorem findCI_addHeader_ne {k q : Str} (m : Headers) (v : Str)
    (hlk : lowerStr k ≠ lowerStr q) :
    findCI (addHeader m k v) q = findCI m q := by
  induction m with
  | nil => simp [addHeader, findCI, List.find?, show (lowerStr k == lowerStr q) = false from by simpa using hlk]
  | cons a t ih =>
    rw [addHeader]
    by_cases h : a.1 = k
    · rw [if_pos (show (a.1 == k) = true from by simpa using h)]
      have ha : lowerStr a.1 ≠ lowerStr q := by rw [h]; exact hlk
      rw [findCI, findCI, List.find?_cons_of_neg _ (by simpa using hlk),
        List.find?_cons_of_neg _ (by simpa using ha)]
    · rw [if_neg (show ¬(a.1 == k) = true from by simpa using h)]
      by_cases ha : lowerStr a.1 = lowerStr q
      · rw [findCI, findCI, List.find?_cons_of_pos _ (by simpa using ha),
          List.find?_cons_of_pos _ (by simpa using ha)]
      · rw [findCI, findCI, List.find?_cons_of_neg _ (by simpa using ha),
          List.find?_cons_of_neg _ (by simpa using ha)]
        exact ih

theorem mem_removeExact {m : Headers} {p : Str × Str} {k : Str} :
    p ∈ removeExact m k ↔ p ∈ m ∧ p.1 ≠ k := by
  rw [removeExact, List.mem_filter]
  constructor
  · rintro ⟨h1, h2⟩; exact ⟨h1, by simpa using h2⟩
  · rintro ⟨h1, h2⟩; exact ⟨h1, by simpa using h2⟩

theorem findCI_removeExact_none {m : Headers} {q k : Str}
    (h : findCI m q = none) : findCI (removeExact m k) q = none := by
  rw [findCI_none_forall] at h ⊢
  intro p hp
  exact h p (mem_removeExact.mp hp).1

theorem findCI_removeHeader_none {m : Headers} {q k : Str}
    (h : findCI m q = none) : findCI (removeHeader m k) q = none := by
  rw [removeHeader]
  cases hf : findCI m k with
  | some p => exact findCI_removeExact_none h
  | none => exact h


theorem mem_rm_add {hp : Headers} {p : Str × Str} (v : Str)
    (hmem : p ∈ hp) (hCR : p.1 ≠ str "Content-Range")
    (hcl : lowerStr p.1 ≠ str "content-length") :
    p ∈ removeHeader (addHeader hp (str "Content-Range") v) (str "Content-Length") := by
  have h1 : p ∈ addHeader hp (str "Content-Range") v := mem_addHeader_of_ne _ _ hmem hCR
  rw [removeHeader]
  cases hf : findCI (addHeader hp (str "Content-Range") v) (str "Content-Length") with
  | none => exact h1
  | some p0 =>
    have hl := findCI_some_lower hf
    refine mem_removeExact.mpr ⟨h1, fun he => ?_⟩
    apply hcl
    rw [he, hl]
    decide

theorem mem_CR_rm_add (hp : Headers) (v : Str) :
    (str "Content-Range", v)
      ∈ removeHeader (addHeader hp (str "Content-Range") v) (str "Content-Length") := by
  have h1 := mem_addHeader_self hp (str "Content-Range") v
  rw [removeHeader]
  cases hf : findCI (addHeader hp (str "Content-Range") v) (str "Content-Length") with
  | none => exact h1
  | some p0 =>
    have hl := findCI_some_lower hf
    refine mem_removeExact.mpr ⟨h1, fun he => ?_⟩
    rw [← he] at hl
    have h2 : lowerStr (str "Content-Range") = lowerStr (str "Content-Length") := by
      simpa using hl
    exact absurd h2 (by decide)

theorem mem_rangeHeaders {hp : Headers} {p : Str × Str} (chunked : Bool)
    (beg endp size : Nat) (hmem : p ∈ hp) (hCR : p.1 ≠ str "Content-Range")
    (hcl : lowerStr p.1 ≠ str "content-length") :
    p ∈ rangeHeaders hp chunked beg endp size := by
  have base := mem_rm_add (contentRangeVal beg endp size) hmem hCR hcl
  rw [rangeHeaders]
  cases chunked with
  | true => simpa using base
  | false =>
    simp only [Bool.false_eq_true, if_false]
    refine mem_addHeader_of_ne _ _ base ?_
    intro he
    apply hcl
    rw [he]
    decide

theorem mem_CR_rangeHeaders (hp : Headers) (chunked : Bool) (beg endp size : Nat) :
    (str "Content-Range", contentRangeVal beg endp size)
      ∈ rangeHeaders hp chunked beg endp size := by
  have base := mem_CR_rm_add hp (contentRangeVal beg endp size)
  rw [rangeHeaders]
  cases chunked with
  | true => simpa using base
  | false =>
    simp only [Bool.false_eq_true, if_false]
    exact mem_addHeader_of_ne _ _ base
      (show str "Content-Range" ≠ str "Content-Length" by decide)

theorem findCI_rangeHeaders_none {hp : Headers} (beg endp size : Nat)
    (h : findCI hp (str "content-length") = none) :
    findCI (rangeHeaders hp true beg endp size) (str "content-length") = none := by
  rw [rangeHeaders]
  simp only [if_true]
  refine findCI_removeHeader_none ?_
  rw [findCI_addHeader_ne _ _ (by decide)]
  exact h

theorem rangeResolved_ok_facts {fs : Fs} {res : Response} {bodySize beg endp : Nat}
    {buff : Str} {res' : Response}
    (h : rangeResolved fs res bodySize beg endp = TbbOut.ok buff res') :
    res'.method = res.method ∧ res'.chunk_size = res.chunk_size ∧
      res'.chunked_enable = res.chunked_enable ∧
      res'.header_pair = rangeHeaders res.header_pair res.chunked_enable beg endp bodySize ∧
      res'.http_state = 206 := by
  obtain ⟨hp, ver, met, st, body, ch, cs, rng, rh⟩ := res
  rw [rangeResolved] at h
  split at h
  · cases h
  · split at h
    · simp only [TbbOut.ok.injEq] at h
      rw [← h.2]
      exact ⟨rfl, rfl, rfl, rfl, rfl⟩
    · split at h
      · simp only [TbbOut.ok.injEq] at h
        rw [← h.2]
        exact ⟨rfl, rfl, rfl, rfl, rfl⟩
      · cases h
    · simp only [TbbOut.ok.injEq] at h
      rw [← h.2]
      exact ⟨rfl, rfl, rfl, rfl, rfl⟩

theorem takeBodyBuff_ok_facts {fs : Fs} {res : Response} {buff : Str} {res' : Response}
    (h : takeBodyBuff fs res = TbbOut.ok buff res') :
    res'.method = res.method ∧ res'.chunk_size = res.chunk_size ∧
      res'.chunked_enable = res.chunked_enable ∧
      (res.chunked_enable = true →
        findCI res.header_pair (str "content-length") = none →
        findCI res'.header_pair (str "content-length") = none) ∧
      (∀ p : Str × Str, p ∈ res.header_pair → p.1 ≠ str "Content-Range" →
        lowerStr p.1 ≠ str "content-length" → p ∈ res'.header_pair) := by
  have build : ∀ {bodySize beg endp : Nat},
      rangeResolved fs res bodySize beg endp = TbbOut.ok buff res' →
      res'.method = res.method ∧ res'.chunk_size = res.chunk_size ∧
        res'.chunked_enable = res.chunked_enable ∧
        (res.chunked_enable = true →
          findCI res.header_pair (str "content-length") = none →
          findCI res'.header_pair (str "content-length") = none) ∧
        (∀ p : Str × Str, p ∈ res.header_pair → p.1 ≠ str "Content-Range" →
          lowerStr p.1 ≠ str "content-length" → p ∈ res'.header_pair) := by
    intro bodySize beg endp hrr
    obtain ⟨h1, h2, h3, h4, _⟩ := rangeResolved_ok_facts hrr
    refine ⟨h1, h2, h3, ?_, ?_⟩
    · intro hch hnone
      rw [h4, hch]
      exact findCI_rangeHeaders_none _ _ _ hnone
    · intro p hp hCR hcl
      rw [h4]
      exact mem_rangeHeaders _ _ _ _ hp hCR hcl
  rw [takeBodyBuff] at h
  split at h
  · cases h
  · split at h
    · split at h
      · exact build h
      · exact build h
      · exact build h
      · cases h
    · split at h
      · simp only [TbbOut.ok.injEq] at h
        rw [← h.2]
        exact ⟨rfl, rfl, rfl, fun _ hn => hn, fun p hp _ _ => hp⟩
      · split at h
        · simp only [TbbOut.ok.injEq] at h
          rw [← h.2]
          exact ⟨rfl, rfl, rfl, fun _ hn => hn, fun p hp _ _ => hp⟩
        · cases h
      · simp only [TbbOut.ok.injEq] at h
        rw [← h.2]
        exact ⟨rfl, rfl, rfl, fun _ hn => hn, fun p hp _ _ => hp⟩

theorem chunkedConfig_eq_none (res : Response) (hm : res.method ≠ str "HEAD")
    (hcl : findCI res.header_pair (str "content-length") = none) :
    chunkedConfig res =
      { res with
          header_pair := addHeader res.header_pair (str "Transfer-Encoding") (str "chunked"),
          chunked_enable := true } := by
  have he : findCI (addHeader res.header_pair (str "Transfer-Encoding") (str "chunked"))
      (str "content-length") = none := by
    rw [findCI_addHeader_ne _ _ (by decide)]
    exact hcl
  rw [chunkedConfig, if_neg hm]
  simp only [getMapKey, he, Option.map_none']

theorem chunkedConfig_eq_some (res : Response) (hm : res.method ≠ str "HEAD")
    {p0 : Str × Str} (hcl : findCI res.header_pair (str "content-length") = some p0) :
    chunkedConfig res =
      { res with
          header_pair :=
            removeExact (addHeader res.header_pair (str "Transfer-Encoding") (str "chunked")) p0.1,
          chunked_enable := true } := by
  have he : findCI (addHeader res.header_pair (str "Transfer-Encoding") (str "chunked"))
      (str "content-length") = some p0 := by
    rw [findCI_addHeader_ne _ _ (by decide)]
    exact hcl
  rw [chunkedConfig, if_neg hm]
  simp only [getMapKey, he, Option.map_some']

theorem findSub_crlf2_append (line : Str) (h : findSub ['\r', '\n'] line = none) :
    findSub ['\r', '\n', '\r', '\n'] (line ++ ['\r', '\n', '\r', '\n']) = some line.length := by
  induction line with
  | nil => decide
  | cons c rest ih =>
    by_cases hl : leadsWith ['\r', '\n'] (c :: rest) = true
    · rw [findSub, if_pos hl] at h
      simp at h
    · rw [findSub, if_neg hl] at h
      have hrest : findSub ['\r', '\n'] rest = none := by
        cases hx : findSub ['\r', '\n'] rest with
        | none => rfl
        | some v => rw [hx] at h; simp at h
      have ihh := ih hrest
      rw [List.cons_append, findSub]
      have hlead : ¬ leadsWith ['\r', '\n', '\r', '\n'] (c :: (rest ++ ['\r', '\n', '\r', '\n'])) = true := by
        intro habs
        rw [leadsWith] at habs
        have h1 : ('\r' == c) = true := by
          cases hb : ('\r' == c) with
          | true => rfl
          | false => rw [hb] at habs; simp at habs
        have h2 : leadsWith ['\n', '\r', '\n'] (rest ++ ['\r', '\n', '\r', '\n']) = true := by
          rw [h1] at habs
          simpa using habs
        have hc : c = '\r' := (beq_iff_eq.mp h1).symm
        cases rest with
        | nil => exact absurd h2 (by decide)
        | cons d rest2 =>
          rw [List.cons_append, leadsWith] at h2
          have hd : ('\n' == d) = true := by
            cases hb : ('\n' == d) with
            | true => rfl
            | false => rw [hb] at h2; simp at h2
          have hdd : d = '\n' := (beq_iff_eq.mp hd).symm
          apply hl
          rw [hc, hdd, leadsWith]
          simp [leadsWith]
      rw [if_neg hlead, ihh]
      simp

/-! ## Claim theorems -/

/-- C3: the claim says the request-handling path never panics on malformed
input.  The code does panic on malformed input: a request line with fewer
than three space-separated tokens makes `parse_header` index
`url_result[2]` out of bounds (here, the head `GET /` followed by a valid
header line), and a multipart `Content-Disposition` line without a quoted
`name=` reaches a `todo!()` in `get_config_from_disposition` (both panics
are modelled explicitly in the embedding). -/
theorem c3_theorem :
    parseHeader (str "GET /\r\nHost: x") = ParseOut.panicked
    ∧ headStepAction (parseHeader (str "GET /\r\nHost: x")) = HeadAction.panicked
    ∧ getConfigFromDisposition (str "Content-Disposition: form-data") true = none := by
  decide

/-- C4 counterexample: with the stored response-header name `content-type`,
`header_exist` does not find `Content-Type` even though the two names are
case-insensitively equal (while `get_header` on the same map does find
it) — duplicate detection is exact-match, refuting the claim. -/
theorem c4_counterexample :
    headerExist [(str "content-type", str "text/html")] (str "Content-Type") = false
    ∧ lowerStr (str "Content-Type") = lowerStr (str "content-type")
    ∧ getHeader [(str "content-type", str "text/html")] (str "Content-Type")
        = some (str "text/html") := by
  decide

/-- C4 (amended): header lookup (`get_header`) and removal (`remove_header`)
are case-insensitive — lookup succeeds for any case-variant query, and
removal removes a stored key that matches the query up to case — but
`header_exist` (duplicate detection, as used by `write_file`) compares
names EXACTLY: it reports true precisely when the exact query string is a
stored key. -/
theorem c4_theorem (m : Headers) (k q v : Str)
    (hmem : (k, v) ∈ m) (hci : lowerStr q = lowerStr k) :
    (getHeader m q).isSome = true
    ∧ (∃ p : Str × Str, findCI m q = some p ∧ lowerStr p.1 = lowerStr q ∧
        removeHeader m q = removeExact m p.1)
    ∧ (headerExist m q = true ↔ ∃ w, (q, w) ∈ m) := by
  have hs : (findCI m q).isSome := findCI_isSome_of_mem m q k v hmem hci.symm
  obtain ⟨p, hp⟩ := Option.isSome_iff_exists.mp hs
  refine ⟨?_, ⟨p, hp, findCI_some_lower hp, ?_⟩, ?_⟩
  · rw [getHeader, hp]
    rfl
  · rw [removeHeader, hp]
  · rw [headerExist]
    constructor
    · intro hex
      obtain ⟨y, hy⟩ := Option.isSome_iff_exists.mp hex
      obtain ⟨y1, y2⟩ := y
      have hmemy := List.mem_of_find?_eq_some hy
      have hpy := List.find?_some hy
      have hq : y1 = q := by simpa using hpy
      exact ⟨y2, hq ▸ hmemy⟩
    · rintro ⟨w, hw⟩
      rw [List.find?_isSome]
      exact ⟨(q, w), hw, by simp⟩

/-- C4 witness: the amended statement at the one-entry map storing
`content-type`, queried with `Content-Type`. -/
theorem c4_witness :
    (getHeader [(str "content-type", str "text/html")] (str "Content-Type")).isSome = true
    ∧ (∃ p : Str × Str,
        findCI [(str "content-type", str "text/html")] (str "Content-Type") = some p
        ∧ lowerStr p.1 = lowerStr (str "Content-Type")
        ∧ removeHeader [(str "content-type", str "text/html")] (str "Content-Type")
            = removeExact [(str "content-type", str "text/html")] p.1)
    ∧ (headerExist [(str "content-type", str "text/html")] (str "Content-Type") = true
        ↔ ∃ w, (str "Content-Type", w) ∈ [(str "content-type", str "text/html")]) :=
  c4_theorem [(str "content-type", str "text/html")] (str "content-type")
    (str "Content-Type") (str "text/html") (by decide) (by decide)

/-- C5 counterexample: with `max_body_size = 2`, a `text/plain` body of
three bytes that was entirely pre-read while reading the head (pre-read
`abc`, Content-Length 3, nothing left owed) exceeds the limit, yet the body
reader returns `PureText` and the driver proceeds to the handler — the
`TooLarge` check only runs when bytes are still owed. -/
theorem c5_counterexample :
    readBody mhBad (str "") [(str "Content-Type", str "text/plain")] (str "abc") 3 cfgC5
      = BodyContent.pureText (str "abc")
    ∧ bodyDispatch
        (readBody mhBad (str "") [(str "Content-Type", str "text/plain")] (str "abc") 3 cfgC5)
      = true
    ∧ cfgC5.max_body_size < (str "abc").length := by
  decide

/-- C5 (amended): for a non-multipart body with bytes still owed beyond the
pre-read tail (`pre.length < Content-Length`), a Content-Length exceeding
`max_body_size` makes the body reader return `TooLarge`, and the connection
driver then closes without reaching `construct_http_event` (no routed
handler runs); when the body was entirely pre-read the size check is
skipped. -/
theorem c5_theorem (mh : Str → Str → Nat → BodyContent) (stream : Str) (hdrs : Headers)
    (pre : Str) (len : Nat) (cfg : ServerConfig) (p : Str × Str)
    (hct : findCI hdrs (str "content-type") = some p)
    (hnm : containsSub (lowerStr p.2) (str "multipart/form-data") = false)
    (hgt : pre.length < len) (hmax : cfg.max_body_size < len) :
    readBody mh stream hdrs pre len cfg = BodyContent.tooLarge
    ∧ bodyDispatch BodyContent.tooLarge = false := by
  refine ⟨?_, rfl⟩
  rw [readBody, if_pos (show 0 < len by omega), hct]
  dsimp only
  rw [if_pos hgt, readBodyAccordingToType,
    if_neg (show ¬containsSub (lowerStr p.2) (str "multipart/form-data") = true by simp [hnm]),
    if_pos (show len - pre.length ≠ 0 by omega),
    if_pos (show pre.length + (len - pre.length) > cfg.max_body_size by omega)]

/-- C5 witness: pre-read `ab` with Content-Length 5 and `max_body_size = 2`
is rejected as `TooLarge` and the handler is not invoked. -/
theorem c5_witness :
    readBody mhBad (str "abc") [(str "Content-Type", str "text/plain")] (str "ab") 5 cfgC5
      = BodyContent.tooLarge
    ∧ bodyDispatch BodyContent.tooLarge = false :=
  c5_theorem mhBad (str "abc") [(str "Content-Type", str "text/plain")] (str "ab") 5 cfgC5
    (str "Content-Type", str "text/plain") (by decide) (by decide) (by decide) (by decide)

/-- C6: the claim (and the spec) say a recorded `(None, None)` range pair is
treated as no range, with the full body sent unchanged.  In the code,
`parse_range_content` produces `Range(None, None)` for a Range header with
no dash (for example `bytes=abc`), and `take_body_buff` then reaches the
`todo!()` arm and panics instead of sending the full body. -/
theorem c6_theorem (fs : Fs) (res : Response) (size : Nat)
    (h1 : res.range = ResponseRangeMeta.range none none)
    (h2 : takeBodySize fs res.body = Except.ok size) :
    parseRangeContent (str "bytes=abc") = ResponseRangeMeta.range none none
    ∧ takeBodyBuff fs res = TbbOut.panicked := by
  refine ⟨by decide, ?_⟩
  rw [takeBodyBuff, h2, h1]

/-- C6 witness: the GET response over the body `ab` with the `(None, None)`
range pair panics in the writer. -/
theorem c6_witness :
    parseRangeContent (str "bytes=abc") = ResponseRangeMeta.range none none
    ∧ takeBodyBuff fs0 resC6w = TbbOut.panicked :=
  c6_theorem fs0 resC6w 2 rfl rfl

/-- C7 counterexample: a routed handler that performs no `write_*` call
leaves the response exactly as `construct_http_event` built it; the emitted
bytes are the bare status line plus the blank line — there is no
`Content-length: 0` header (no `content-length` at any casing occurs in the
emitted block), refuting that part of the claim. -/
theorem c7_counterexample :
    writeOnce fs0 (initResponse (str "HTTP/1.1") (str "GET") [] 5120)
      = WOut.done (str "HTTP/1.1 200 OK\r\n\r\n")
          (initResponse (str "HTTP/1.1") (str "GET") [] 5120)
    ∧ containsSub (lowerStr (str "HTTP/1.1 200 OK\r\n\r\n")) (str "content-length") = false
    ∧ findCI (initResponse (str "HTTP/1.1") (str "GET") [] 5120).header_pair
        (str "content-length") = none := by
  decide

/-- C7 (amended): for a routed request whose handler performs no `write_*`
call, the response on the socket has status 200 and zero body bytes, but
its header block is empty: the emitted bytes are exactly the status line
followed by the blank line, with no `Content-length` header at all. -/
theorem c7_theorem (fs : Fs) (ver method : Str) (rh : Headers) (cs : Nat) :
    writeOnce fs (initResponse ver method rh cs)
      = WOut.done (ver ++ str " " ++ str "200 OK\r\n" ++ str "\r\n")
          (initResponse ver method rh cs)
    ∧ (initResponse ver method rh cs).http_state = 200
    ∧ (initResponse ver method rh cs).header_pair = [] := by
  refine ⟨?_, rfl, rfl⟩
  have hh : headerToString (initResponse ver method rh cs)
      = some (ver ++ str " " ++ str "200 OK\r\n" ++ str "\r\n") := by
    rw [headerToString]
    simp only [initResponse]
    rw [show getHttpstatusFromCode 200 = some (str "200 OK\r\n") from rfl]
    simp [headerLines]
  by_cases hm : method = str "HEAD"
  · rw [writeOnce, if_pos (show (initResponse ver method rh cs).method = str "HEAD" from hm), hh]
  · have htbb : takeBodyBuff fs (initResponse ver method rh cs)
        = TbbOut.ok [] (initResponse ver method rh cs) := rfl
    rw [writeOnce, if_neg (show ¬(initResponse ver method rh cs).method = str "HEAD" from hm),
      htbb]
    dsimp only
    rw [hh]
    simp

/-- C8 counterexample: with `GET/w/*` registered, the request key `GET/w`
has exactly the first `len(key) - 2 = 5` characters of the registered key
as its first 5 characters (it IS those 5 characters), so the claim selects
the wildcard entry; the code instead requires `key.len() > len(k) - 2`
strictly and falls through to `NEVER_FOUND_FOR_ALL`. -/
theorem c8_counterexample :
    doRouter keysC8 (str "GET") (str "/w") = RouteOutcome.notFound
    ∧ keysC8.contains (str "GET" ++ pathOfUrl (str "/w")) = false
    ∧ (str "GET/w/*").drop ((str "GET/w/*").length - 1) = str "*"
    ∧ (str "GET/w/*").take ((str "GET/w/*").length - 1 - 1)
        = (str "GET" ++ pathOfUrl (str "/w")).take ((str "GET/w/*").length - 1 - 1)
    ∧ (str "GET/w/*") ∈ keysC8 := by
  decide

/-- C8 (amended): when the routing key `K = METHOD ++ path-without-query`
has no exact entry, the router invokes some registered key ending in `*`
whose first `len(key) - 2` characters equal the first `len(key) - 2`
characters of `K` AND for which `K` is strictly longer than
`len(key) - 2`; if no registered key passes that test, the reserved
`NEVER_FOUND_FOR_ALL` entry is invoked. -/
theorem c8_theorem (keys : List Str) (method url : Str)
    (hnx : keys.contains (method ++ pathOfUrl url) = false) :
    ((∃ k ∈ keys, wildMatch (method ++ pathOfUrl url) k = true) →
      ∃ k, doRouter keys method url = RouteOutcome.wildcard k ∧ k ∈ keys ∧
        wildMatch (method ++ pathOfUrl url) k = true)
    ∧ ((∀ k ∈ keys, wildMatch (method ++ pathOfUrl url) k = false) →
      doRouter keys method url = RouteOutcome.notFound) := by
  have hni : ¬(keys.contains (method ++ pathOfUrl url) = true) := by rw [hnx]; simp
  constructor
  · rintro ⟨k, hk, hw⟩
    have hs : (keys.find? (fun x => wildMatch (method ++ pathOfUrl url) x)).isSome :=
      List.find?_isSome.mpr ⟨k, hk, hw⟩
    obtain ⟨k', hk'⟩ := Option.isSome_iff_exists.mp hs
    refine ⟨k', ?_, List.mem_of_find?_eq_some hk', List.find?_some hk'⟩
    rw [doRouter]
    rw [if_neg hni, hk']
  · intro hall
    have hn : keys.find? (fun x => wildMatch (method ++ pathOfUrl url) x) = none :=
      List.find?_eq_none.mpr (fun x hx => by simp [hall x hx])
    rw [doRouter]
    rw [if_neg hni, hn]

/-- C8 witness: `GET /w/x` against the registered `GET/w/*` is routed to
that wildcard entry. -/
theorem c8_witness :
    ∃ k, doRouter keysC8 (str "GET") (str "/w/x") = RouteOutcome.wildcard k
      ∧ k ∈ keysC8 ∧ wildMatch (str "GET" ++ pathOfUrl (str "/w/x")) k = true :=
  (c8_theorem keysC8 (str "GET") (str "/w/x") (by decide)).1
    ⟨str "GET/w/*", by decide, by decide⟩

/-- C9: a head that is only a request line — a line containing no CRLF,
followed directly by the `CRLF CRLF` terminator — is extracted by
`read_http_head` as that bare line with no pre-read body, `parse_header`
rejects it as a protocol error (its first `find("\r\n")` fails), and
`handle_incoming` shuts the connection down without writing any response
bytes. -/
theorem c9_theorem (line : Str) (h : findSub (str "\r\n") line = none) :
    extractHead (line ++ str "\r\n\r\n") = some (line, none)
    ∧ parseHeader line = ParseOut.protoErr
    ∧ headStepAction (parseHeader line) = HeadAction.close := by
  have hfind : findSub (str "\r\n\r\n") (line ++ str "\r\n\r\n") = some line.length :=
    findSub_crlf2_append line h
  have hparse : parseHeader line = ParseOut.protoErr := by
    rw [parseHeader, h]
  refine ⟨?_, hparse, by rw [hparse]; rfl⟩
  rw [extractHead, hfind]
  dsimp only
  have h4 : (str "\r\n\r\n").length = 4 := rfl
  rw [if_neg (by simp [List.length_append, h4])]
  rw [List.take_left]

/-- C9 witness: the head `GET / HTTP/1.1` followed by the bare terminator. -/
theorem c9_witness :
    extractHead (str "GET / HTTP/1.1" ++ str "\r\n\r\n") = some (str "GET / HTTP/1.1", none)
    ∧ parseHeader (str "GET / HTTP/1.1") = ParseOut.protoErr
    ∧ headStepAction (parseHeader (str "GET / HTTP/1.1")) = HeadAction.close :=
  c9_theorem (str "GET / HTTP/1.1") (by decide)

/-- C10: form-field lookup is case-insensitive.  A field stored under name
`nm` (the unique field whose name matches `nm` up to case) is found by any
query key equal to `nm` up to letter case: in a url-form body and for text
fields of a multipart body via `get_query`, and for file fields via
`get_file`. -/
theorem c10_theorem (um : Headers) (mm : List (Str × MultipleFormData))
    (k nm v : Str) (f : MultipleFormFile) :
    ((nm, v) ∈ um → lowerStr k = lowerStr nm →
      (∀ p ∈ um, lowerStr p.1 = lowerStr nm → p = (nm, v)) →
      getQuery (BodyContent.urlForm um) k = some v)
    ∧ ((nm, MultipleFormData.text v) ∈ mm → lowerStr k = lowerStr nm →
      (∀ p ∈ mm, lowerStr p.1 = lowerStr nm → p = (nm, MultipleFormData.text v)) →
      getQuery (BodyContent.multi mm) k = some v)
    ∧ ((nm, MultipleFormData.file f) ∈ mm → lowerStr k = lowerStr nm →
      (∀ p ∈ mm, lowerStr p.1 = lowerStr nm → p = (nm, MultipleFormData.file f)) →
      getFile (BodyContent.multi mm) k = some f) := by
  refine ⟨?_, ?_, ?_⟩
  · intro hmem hlk huniq
    have hfind : findCI um k = some (nm, v) := by
      rw [findCI]
      refine find_eq_some_of_unique _ um (nm, v) hmem (by simp [hlk]) ?_
      intro y hy hpy
      refine huniq y hy ?_
      have hy2 : lowerStr y.1 = lowerStr k := by simpa using hpy
      rw [hy2, hlk]
    rw [getQuery, hfind]
    rfl
  · intro hmem hlk huniq
    have hfind : mm.find? (fun p => lowerStr p.1 == lowerStr k)
        = some (nm, MultipleFormData.text v) := by
      refine find_eq_some_of_unique _ mm (nm, MultipleFormData.text v) hmem (by simp [hlk]) ?_
      intro y hy hpy
      refine huniq y hy ?_
      have hy2 : lowerStr y.1 = lowerStr k := by simpa using hpy
      rw [hy2, hlk]
    rw [getQuery, hfind]
  · intro hmem hlk huniq
    have hfind : mm.find? (fun p => lowerStr p.1 == lowerStr k)
        = some (nm, MultipleFormData.file f) := by
      refine find_eq_some_of_unique _ mm (nm, MultipleFormData.file f) hmem (by simp [hlk]) ?_
      intro y hy hpy
      refine huniq y hy ?_
      have hy2 : lowerStr y.1 = lowerStr k := by simpa using hpy
      rw [hy2, hlk]
    rw [getFile, hfind]

/-- C10 witness: lookups with case-varied keys over concrete url-form and
multipart bodies. -/
theorem c10_witness :
    getQuery (BodyContent.urlForm [(str "Name", str "alice")]) (str "nAmE") = some (str "alice")
    ∧ getQuery (BodyContent.multi mmC10) (str "NAME") = some (str "alice")
    ∧ getFile (BodyContent.multi mmC10) (str "AVATAR") = some fileC10 :=
  ⟨(c10_theorem [(str "Name", str "alice")] mmC10 (str "nAmE") (str "Name") (str "alice")
      fileC10).1 (by decide) (by decide) (by decide),
   (c10_theorem [(str "Name", str "alice")] mmC10 (str "NAME") (str "Name") (str "alice")
      fileC10).2.1 (by decide) (by decide) (by decide),
   (c10_theorem [(str "Name", str "alice")] mmC10 (str "AVATAR") (str "avatar") (str "alice")
      fileC10).2.2 (by decide) (by decide) (by decide)⟩


/-- C1 counterexample: the memory body `ab` has size 2 and the recorded
range pair is `(Some 1, Some 1)`; the claim's satisfiability test
`start <= end < size` holds (`1 <= 1 < 2`), yet the writer takes the
unsatisfiable path — `beg_pos >= body_size - 1` — setting status 416 and
aborting the write, instead of answering 206 with a `Content-Range`. -/
theorem c1_counterexample :
    (1 ≤ 1 ∧ 1 < 2)
    ∧ writeOnce fs0 resC1x = WOut.failed [] (writeState resC1x 416)
    ∧ (writeState resC1x 416).http_state = 416 := by
  decide


/-- C1 (amended): for a response in range mode over a body of known size
with recorded pair `(Some s, Some e)` (non-HEAD, so the writer takes the
body path): if `s <= e < size` AND `s + 1 < size`, the write succeeds with
status rewritten to 206 and a `Content-Range: bytes s-e/size` header pair in
the emitted header block; otherwise (`s > e`, `s >= size - 1`, or
`e >= size`) the status becomes 416 via `write_state(416)` and the write
aborts with zero bytes sent. -/
theorem c1_theorem (fs : Fs) (res : Response) (s e size : Nat)
    (hr : res.range = ResponseRangeMeta.range (some s) (some e))
    (hm : res.method ≠ str "HEAD")
    (hsz : takeBodySize fs res.body = Except.ok size)
    (hpos : 1 ≤ size) :
    (s ≤ e ∧ e < size ∧ s + 1 < size →
      ∃ bytes res', writeOnce fs res = WOut.done bytes res'
        ∧ res'.http_state = 206
        ∧ (str "Content-Range", contentRangeVal s e size) ∈ res'.header_pair)
    ∧ (¬(s ≤ e ∧ e < size ∧ s + 1 < size) →
      writeOnce fs res = WOut.failed [] (writeState res 416)
        ∧ (writeState res 416).http_state = 416) := by
  have htb : takeBodyBuff fs res = rangeResolved fs res size s e := by
    rw [takeBodyBuff, hsz, hr]
  constructor
  · rintro ⟨h1, h2, h3⟩
    have hcond : ¬(s > e ∨ s ≥ size - 1 ∨ e ≥ size) := by omega
    have hres' :
        ∀ buff : Str,
          takeBodyBuff fs res = TbbOut.ok buff
            { res with
                header_pair := rangeHeaders res.header_pair res.chunked_enable s e size,
                http_state := 206 } →
          ∃ bytes res', writeOnce fs res = WOut.done bytes res'
            ∧ res'.http_state = 206
            ∧ (str "Content-Range", contentRangeVal s e size) ∈ res'.header_pair := by
      intro buff htbb
      have hh : headerToString
          { res with
              header_pair := rangeHeaders res.header_pair res.chunked_enable s e size,
              http_state := 206 }
          = some (res.version ++ str " " ++ str "206 Partial Content\r\n"
              ++ headerLines (rangeHeaders res.header_pair res.chunked_enable s e size)
              ++ str "\r\n") := by
        rw [headerToString]
        rw [show getHttpstatusFromCode 206 = some (str "206 Partial Content\r\n") from rfl]
        rfl
      refine ⟨(res.version ++ str " " ++ str "206 Partial Content\r\n"
          ++ headerLines (rangeHeaders res.header_pair res.chunked_enable s e size)
          ++ str "\r\n") ++ buff,
        { res with
            header_pair := rangeHeaders res.header_pair res.chunked_enable s e size,
            http_state := 206 },
        ?_, rfl, mem_CR_rangeHeaders _ _ _ _ _⟩
      rw [writeOnce, if_neg hm, htbb]
      dsimp only
      rw [hh]
    cases hbody : res.body with
    | memory b =>
      refine hres' ((b.drop s).take (e - s + 1)) ?_
      rw [htb, rangeResolved, if_neg hcond, hbody]
    | file p =>
      rw [hbody] at hsz
      rw [takeBodySize] at hsz
      cases hfs : fs p with
      | some c =>
        refine hres' ((c.drop s).take (e - s + 1)) ?_
        rw [htb, rangeResolved, if_neg hcond, hbody]
        dsimp only
        rw [hfs]
      | none => rw [hfs] at hsz; cases hsz
    | none =>
      rw [hbody] at hsz
      rw [takeBodySize] at hsz
      simp only [Except.ok.injEq] at hsz
      omega
  · intro hns
    have hcond : s > e ∨ s ≥ size - 1 ∨ e ≥ size := by omega
    have htbb : takeBodyBuff fs res = TbbOut.err (writeState res 416) := by
      rw [htb, rangeResolved, if_pos hcond]
    refine ⟨?_, rfl⟩
    rw [writeOnce, if_neg hm, htbb]


/-- C1 witness: range `(1, 2)` over the four-byte body `abcd` yields a 206
with `Content-Range: bytes 1-2/4`. -/
theorem c1_witness :
    ∃ bytes res', writeOnce fs0 resC1w = WOut.done bytes res'
      ∧ res'.http_state = 206
      ∧ (str "Content-Range", contentRangeVal 1 2 4) ∈ res'.header_pair :=
  (c1_theorem fs0 resC1w 1 2 4 rfl (by decide) rfl (by decide)).1 (by decide)

/-- C2 counterexample: a handler that calls `write_string`, then
`chunked()`, then `write_string` again leaves the chunked flag raised while
`write_string` has re-added a `Content-length: 6` pair, so the emitted
header block (one `k: v` line per stored pair) carries a `Content-length`
alongside `Transfer-Encoding: chunked`, refuting the claim's header
invariant. -/
theorem c2_counterexample :
    resC2x.chunked_enable = true
    ∧ findCI resC2x.header_pair (str "content-length")
        = some (str "Content-length", str "6")
    ∧ (str "Transfer-Encoding", str "chunked") ∈ resC2x.header_pair := by
  decide

/-- C2 (amended): `chunked()` on a non-HEAD response raises the chunked
flag, stores `Transfer-Encoding: chunked`, and removes the first
case-insensitive `content-length` entry; provided the header map held at
most one such entry (removing one leaves none) and no later builder call
re-adds one before the write, the response reaching `write_chunk` has no
`content-length` at any casing and still has `Transfer-Encoding: chunked` —
both preserved by `take_body_buff` — and every successfully written chunked
byte stream ends with the terminator `0 CRLF CRLF`. -/
theorem c2_theorem (fs : Fs) (res0 : Response) (bytes : Str) (res' : Response)
    (hm : res0.method ≠ str "HEAD")
    (hone : findCI (removeHeader res0.header_pair (str "content-length"))
      (str "content-length") = none)
    (hW : writeChunk fs (chunkedConfig res0) = WOut.done bytes res') :
    (chunkedConfig res0).chunked_enable = true
    ∧ findCI (chunkedConfig res0).header_pair (str "content-length") = none
    ∧ (str "Transfer-Encoding", str "chunked") ∈ (chunkedConfig res0).header_pair
    ∧ findCI res'.header_pair (str "content-length") = none
    ∧ (str "Transfer-Encoding", str "chunked") ∈ res'.header_pair
    ∧ (∃ pre : Str, bytes = pre ++ str "0\r\n\r\n") := by
  have hen : (chunkedConfig res0).chunked_enable = true := by
    cases hcl : findCI res0.header_pair (str "content-length") with
    | none => rw [chunkedConfig_eq_none res0 hm hcl]
    | some p0 => rw [chunkedConfig_eq_some res0 hm hcl]
  have hnone : findCI (chunkedConfig res0).header_pair (str "content-length") = none := by
    cases hcl : findCI res0.header_pair (str "content-length") with
    | none =>
      rw [chunkedConfig_eq_none res0 hm hcl]
      show findCI (addHeader res0.header_pair (str "Transfer-Encoding") (str "chunked"))
        (str "content-length") = none
      rw [findCI_addHeader_ne _ _ (by decide)]
      exact hcl
    | some p0 =>
      rw [chunkedConfig_eq_some res0 hm hcl]
      show findCI
        (removeExact (addHeader res0.header_pair (str "Transfer-Encoding") (str "chunked")) p0.1)
        (str "content-length") = none
      have hone' : findCI (removeExact res0.header_pair p0.1) (str "content-length") = none := by
        rw [removeHeader, hcl] at hone
        exact hone
      rw [findCI_none_forall] at hone' ⊢
      intro p hp
      obtain ⟨hmem', hne⟩ := mem_removeExact.mp hp
      rcases mem_of_mem_addHeader hmem' with rfl | hmem2
      · decide
      · exact hone' p (mem_removeExact.mpr ⟨hmem2, hne⟩)
  have hTE : (str "Transfer-Encoding", str "chunked") ∈ (chunkedConfig res0).header_pair := by
    cases hcl : findCI res0.header_pair (str "content-length") with
    | none =>
      rw [chunkedConfig_eq_none res0 hm hcl]
      exact mem_addHeader_self _ _ _
    | some p0 =>
      rw [chunkedConfig_eq_some res0 hm hcl]
      show (str "Transfer-Encoding", str "chunked")
        ∈ removeExact (addHeader res0.header_pair (str "Transfer-Encoding") (str "chunked")) p0.1
      refine mem_removeExact.mpr ⟨mem_addHeader_self _ _ _, fun he => ?_⟩
      have hl := findCI_some_lower hcl
      rw [← he] at hl
      have habs : lowerStr (str "Transfer-Encoding") = lowerStr (str "content-length") := by
        simpa using hl
      exact absurd habs (by decide)
  have hccm : (chunkedConfig res0).method = res0.method := by
    cases hcl : findCI res0.header_pair (str "content-length") with
    | none => rw [chunkedConfig_eq_none res0 hm hcl]
    | some p0 => rw [chunkedConfig_eq_some res0 hm hcl]
  rw [writeChunk] at hW
  cases htbb : takeBodyBuff fs (chunkedConfig res0) with
  | err r => rw [htbb] at hW; simp at hW
  | panicked => rw [htbb] at hW; simp at hW
  | ok buff res'' =>
    rw [htbb] at hW
    dsimp only at hW
    obtain ⟨hmeth, hcsz, hchen, hfn, hpres⟩ := takeBodyBuff_ok_facts htbb
    cases hh : headerToString res'' with
    | none => rw [hh] at hW; simp at hW
    | some hdr =>
      rw [hh] at hW
      dsimp only at hW
      rw [if_neg (show ¬res''.method = str "HEAD" by rw [hmeth, hccm]; exact hm)] at hW
      simp only [WOut.done.injEq] at hW
      obtain ⟨hbytes, hres⟩ := hW
      refine ⟨hen, hnone, hTE, ?_, ?_, ?_⟩
      · rw [← hres]
        exact hfn hen hnone
      · rw [← hres]
        exact hpres _ hTE (by decide) (by decide)
      · exact ⟨hdr ++ chunkFrames res''.chunk_size buff, hbytes.symm⟩

/-- C2 witness: `write_string "hello"` then `chunked()` and a chunked
write on the empty filesystem. -/
theorem c2_witness :
    (chunkedConfig resC2w0).chunked_enable = true
    ∧ findCI (chunkedConfig resC2w0).header_pair (str "content-length") = none
    ∧ (str "Transfer-Encoding", str "chunked") ∈ (chunkedConfig resC2w0).header_pair
    ∧ findCI c2wRes.header_pair (str "content-length") = none
    ∧ (str "Transfer-Encoding", str "chunked") ∈ c2wRes.header_pair
    ∧ (∃ pre : Str, c2wBytes = pre ++ str "0\r\n\r\n") :=
  c2_theorem fs0 resC2w0 c2wBytes c2wRes (by decide) (by decide) (by decide)
